import Mathlib

/-!
Shallow embedding of `DspHelpers.hpp` (namespace `tap`): a collection of
per-sample DSP helper classes.  Samples of C++ type `Type` (float/double)
are modelled as exact rationals where the code only uses field arithmetic,
and as real numbers where transcendental functions (`sin`, `exp`, `sqrt`,
`atan2`) appear.  C++ `int` arithmetic is modelled exactly: integer
division truncates toward zero, and a float assigned to an `int` variable
is truncated toward zero.  A fatal `assert` is modelled by returning
`Option.none`.
-/

namespace tap

/-- Truncation of a rational toward zero, the C++ conversion from a
floating-point value to `int`. -/
def truncQ (q : ℚ) : ℤ :=
  if 0 ≤ q then ⌊q⌋ else ⌈q⌉

/-- C++ integer division: quotient truncated toward zero. -/
def cppDiv (a b : ℤ) : ℤ :=
  a.sign * b.sign * (a.natAbs / b.natAbs : ℕ)

/-- State of `tap::Amplitude<Type>`: peak meter plus windowed RMS meter.
The C++ member `rmsVal` always holds `std::sqrt (sum / windowSize)` for the
`sum` current at the moment of the last `updateRms` call, where
`sum / windowSize` is C++ `int` division; we store that integer radicand in
`rmsRad` and take the square root when the value is read. -/
structure Amplitude where
  peakVal : ℚ
  rmsWindow : ℕ → ℚ
  index : ℕ
  sum : ℤ
  rmsRad : ℤ

/-- The compile-time constant `maxWindowSize = 192000` (one second of audio
at 192 kHz). -/
def Amplitude.maxWindowSize : ℕ := 192000

/-- A freshly constructed meter with zero-initialized storage. -/
def Amplitude.init : Amplitude :=
  ⟨0, fun _ => 0, 0, 0, 0⟩

/-- `tap::Amplitude::updatePeakSignal`. -/
def Amplitude.updatePeakSignal (st : Amplitude) (sample : ℚ) : Amplitude :=
  { st with peakVal := max |sample| st.peakVal }

/-- `tap::Amplitude::getPeak`. -/
def Amplitude.getPeak (st : Amplitude) : ℚ := st.peakVal

/-- `tap::Amplitude::reset`. -/
def Amplitude.reset (st : Amplitude) : Amplitude :=
  { st with peakVal := 0 }

/-- `tap::Amplitude::updateRms`.  The member `sum` is declared `int sum = 0`
in the C++ source, so both the incremental update
`sum += (sample * sample) - (oldSignal * oldSignal)` and each iteration of
the per-window recomputation loop truncate the accumulated value toward
zero, and `sum / windowSize` inside the `sqrt` is integer division.
The leading `assert (windowSize < maxWindowSize)` is modelled as `none`. -/
def Amplitude.updateRms (st : Amplitude) (sample : ℚ) (windowSize : ℕ) :
    Option Amplitude :=
  if windowSize < Amplitude.maxWindowSize then
    let oldSignal := st.rmsWindow st.index
    let window1 := Function.update st.rmsWindow st.index sample
    let sum1 := truncQ ((st.sum : ℚ) + (sample * sample - oldSignal * oldSignal))
    let rmsRad1 := cppDiv sum1 windowSize
    let index1 := st.index + 1
    if windowSize ≤ index1 then
      some { peakVal := st.peakVal
             rmsWindow := window1
             index := 0
             sum := (List.range windowSize).foldl
               (fun s i => truncQ ((s : ℚ) + window1 i * window1 i)) 0
             rmsRad := rmsRad1 }
    else
      some { peakVal := st.peakVal
             rmsWindow := window1
             index := index1
             sum := sum1
             rmsRad := rmsRad1 }
  else none

/-- `tap::Amplitude::getRms`: the stored value is the square root of the
integer radicand computed at the last update. -/
noncomputable def Amplitude.getRms (st : Amplitude) : ℝ :=
  Real.sqrt (st.rmsRad : ℝ)

/-- Four consecutive `updateRms` calls feeding a constant sample `1/2` with
`windowSize = 4` into a fresh meter. -/
def meterRunHalf : Option Amplitude :=
  (((Amplitude.init.updateRms (1/2) 4).bind
      (fun st => st.updateRms (1/2) 4)).bind
      (fun st => st.updateRms (1/2) 4)).bind
      (fun st => st.updateRms (1/2) 4)

/-- C9: for every meter state and sample, `updateRms` with
`windowSize ≥ 192000` fails the `windowSize < maxWindowSize` assertion and
produces no updated state: the window contents, running sum, write index,
peak and rms are untouched because the update never executes. -/
theorem updateRms_rejects_large_window (st : Amplitude) (sample : ℚ)
    (windowSize : ℕ) (h : 192000 ≤ windowSize) :
    st.updateRms sample windowSize = none := by
  have hlt : ¬ windowSize < Amplitude.maxWindowSize := by
    simp only [Amplitude.maxWindowSize]
    omega
  simp [Amplitude.updateRms, hlt]

/-- Witness for C9 at the boundary input `windowSize = 192000`. -/
theorem updateRms_rejects_large_window_witness :
    192000 ≤ 192000 ∧ Amplitude.init.updateRms 0 192000 = none :=
  ⟨le_refl 192000, updateRms_rejects_large_window Amplitude.init 0 192000 (le_refl 192000)⟩

/-- A rational in `[0, 1)` truncates to the integer 0. -/
theorem truncQ_eq_zero {q : ℚ} (h0 : 0 ≤ q) (h1 : q < 1) : truncQ q = 0 := by
  rw [truncQ, if_pos h0]
  exact Int.floor_eq_zero_iff.mpr ⟨h0, h1⟩

/-- The full-window recomputation loop leaves the `int` sum at 0 whenever
every stored squared sample lies in `[0, 1)`. -/
theorem foldl_trunc_eq_zero (f : ℕ → ℚ) (l : List ℕ)
    (hf : ∀ i, 0 ≤ f i * f i ∧ f i * f i < 1) :
    l.foldl (fun s i => truncQ ((s : ℚ) + f i * f i)) 0 = 0 := by
  induction l with
  | nil => rfl
  | cons a l ih =>
      simp only [List.foldl_cons, Int.cast_zero, zero_add]
      rw [truncQ_eq_zero (hf a).1 (hf a).2]
      exact ih

/-- Invariant carried through the constant-`1/2` run: the `int` sum is 0 and
every window slot holds either the initial 0 or the sample `1/2`. -/
def HalfInv (st : Amplitude) : Prop :=
  st.sum = 0 ∧ ∀ j, st.rmsWindow j = 0 ∨ st.rmsWindow j = 1/2

theorem updateRms_half_step {st : Amplitude} (hinv : HalfInv st) :
    ∃ st', st.updateRms (1/2) 4 = some st' ∧ HalfInv st' ∧ st'.rmsRad = 0 := by
  obtain ⟨hsum, hwin⟩ := hinv
  have hold : st.rmsWindow st.index * st.rmsWindow st.index = 0 ∨
      st.rmsWindow st.index * st.rmsWindow st.index = 1/4 := by
    rcases hwin st.index with h | h <;> rw [h] <;> norm_num
  have hs1 : truncQ ((st.sum : ℚ) +
      ((1:ℚ)/2 * (1/2) - st.rmsWindow st.index * st.rmsWindow st.index)) = 0 := by
    rw [hsum]
    rcases hold with h | h <;> rw [h] <;>
      exact truncQ_eq_zero (by norm_num) (by norm_num)
  have hwin1 : ∀ j, Function.update st.rmsWindow st.index (1/2) j = 0 ∨
      Function.update st.rmsWindow st.index (1/2) j = 1/2 := by
    intro j
    rcases eq_or_ne j st.index with h | h
    · right; rw [h, Function.update_same]
    · rw [Function.update_noteq h]; exact hwin j
  have hrad : cppDiv 0 4 = 0 := by simp [cppDiv]
  rw [Amplitude.updateRms]
  rw [if_pos (by norm_num [Amplitude.maxWindowSize])]
  simp only [hs1, hrad]
  by_cases hidx : 4 ≤ st.index + 1
  · rw [if_pos hidx]
    refine ⟨_, rfl, ⟨?_, hwin1⟩, rfl⟩
    exact foldl_trunc_eq_zero _ _ (fun i => by
      rcases hwin1 i with h | h <;> rw [h] <;> norm_num)
  · rw [if_neg hidx]
    exact ⟨_, rfl, ⟨rfl, hwin1⟩, rfl⟩

/-- C2: feeding four samples of constant amplitude `1/2` with window size 4
into a fresh meter leaves the integer running sum at 0 (every squared-sample
contribution `1/4` truncates to 0 on assignment to the `int` member), so
after a full window has been observed `getRms()` is 0, not the true RMS
`1/2`. -/
theorem meter_rms_integer_sum_bug :
    ∃ st, meterRunHalf = some st ∧ st.sum = 0 ∧ st.rmsRad = 0 ∧
      st.getRms = 0 ∧ (0 : ℝ) ≠ 1/2 := by
  have h0 : HalfInv Amplitude.init := by
    constructor
    · rfl
    · intro j; left; rfl
  obtain ⟨s1, e1, i1, -⟩ := updateRms_half_step h0
  obtain ⟨s2, e2, i2, -⟩ := updateRms_half_step i1
  obtain ⟨s3, e3, i3, -⟩ := updateRms_half_step i2
  obtain ⟨s4, e4, i4, r4⟩ := updateRms_half_step i3
  refine ⟨s4, ?_, i4.1, r4, ?_, by norm_num⟩
  · rw [meterRunHalf, e1]
    simp only [Option.some_bind]
    rw [e2]
    simp only [Option.some_bind]
    rw [e3]
    simp only [Option.some_bind]
    exact e4
  · rw [Amplitude.getRms, r4]
    simp

/-- State of `tap::SynthWave<Type>`: sample rate, normalized phase time and
per-sample time step. -/
structure SynthWave where
  currentSampleRate : ℝ
  currentTime : ℝ
  timeStep : ℝ

/-- `tap::SynthWave::prepareToPlay`. -/
noncomputable def SynthWave.prepareToPlay (st : SynthWave) (sampleRate : ℝ) :
    SynthWave :=
  ⟨sampleRate, st.currentTime, 1 / sampleRate⟩

/-- The phase reset performed at the head of every generator:
`if (currentTime >= 1.0) currentTime = 0.0`. -/
noncomputable def wrapTime (t : ℝ) : ℝ := if 1 ≤ t then 0 else t

/-- `maxHarmonic = std::floor (currentSampleRate / (2.0f * frequency))`, the
number of loop iterations of the additive-synthesis generators (a loop from
harmonic 1 up to a negative or zero bound runs no iteration, hence `toNat`). -/
noncomputable def maxHarmonicOf (sampleRate frequency : ℝ) : ℕ :=
  (⌊sampleRate / (2 * frequency)⌋).toNat

/-- The square generator loop `for (harmonic = 1.0; harmonic <= maxHarmonic;
harmonic += 2.0)`: odd harmonics `2k+1` for `k < (maxHarmonic + 1) / 2`. -/
noncomputable def squareSumOfSines (maxHarmonic : ℕ) (θ : ℝ) : ℝ :=
  ∑ k in Finset.range ((maxHarmonic + 1) / 2),
    1 / ((2 * k + 1 : ℕ) : ℝ) * Real.sin (((2 * k + 1 : ℕ) : ℝ) * θ)

/-- The saw generator loop `for (harmonic = 1.0; harmonic <= maxHarmonic;
++harmonic)`: all harmonics `1 .. maxHarmonic`. -/
noncomputable def sawSumOfSines (maxHarmonic : ℕ) (θ : ℝ) : ℝ :=
  ∑ h in Finset.Icc 1 maxHarmonic, 1 / (h : ℝ) * Real.sin ((h : ℝ) * θ)

/-- The triangle generator loop: odd harmonics weighted `1/h²`. -/
noncomputable def triangleSumOfSines (maxHarmonic : ℕ) (θ : ℝ) : ℝ :=
  ∑ k in Finset.range ((maxHarmonic + 1) / 2),
    1 / (((2 * k + 1 : ℕ) : ℝ) * ((2 * k + 1 : ℕ) : ℝ)) *
      Real.sin (((2 * k + 1 : ℕ) : ℝ) * θ)

/-- The impulse-train generator loop: all harmonics with unit weight. -/
noncomputable def impulseSumOfSines (maxHarmonic : ℕ) (θ : ℝ) : ℝ :=
  ∑ h in Finset.Icc 1 maxHarmonic, Real.sin ((h : ℝ) * θ)

/-- `tap::SynthWave::processSine`.  The only assertion is
`assert (currentSampleRate > 0)`; it is modelled as `none`. -/
noncomputable def SynthWave.processSine (st : SynthWave) (frequency : ℝ)
    (phaseOffset : ℤ) : Option (ℝ × SynthWave) :=
  if 0 < st.currentSampleRate then
    some (Real.sin (2 * Real.pi * frequency * wrapTime st.currentTime +
        (phaseOffset : ℝ)),
      ⟨st.currentSampleRate, wrapTime st.currentTime + st.timeStep, st.timeStep⟩)
  else none

/-- `tap::SynthWave::processSquare`. -/
noncomputable def SynthWave.processSquare (st : SynthWave) (frequency : ℝ)
    (phaseOffset : ℤ) : Option (ℝ × SynthWave) :=
  if 0 < st.currentSampleRate then
    some (4 / Real.pi *
        squareSumOfSines (maxHarmonicOf st.currentSampleRate frequency)
          (2 * Real.pi * frequency * wrapTime st.currentTime + (phaseOffset : ℝ)),
      ⟨st.currentSampleRate, wrapTime st.currentTime + st.timeStep, st.timeStep⟩)
  else none

/-- `tap::SynthWave::processSaw`.  The C++ output line is
`(1 / 2) - (1 / pi) * sumOfSines`: `1 / 2` divides the int literals 1 and 2,
and `(1 / pi)` multiplies only `sumOfSines`. -/
noncomputable def SynthWave.processSaw (st : SynthWave) (frequency : ℝ)
    (phaseOffset : ℤ) : Option (ℝ × SynthWave) :=
  if 0 < st.currentSampleRate then
    some (((1 / 2 : ℤ) : ℝ) - 1 / Real.pi *
        sawSumOfSines (maxHarmonicOf st.currentSampleRate frequency)
          (2 * Real.pi * frequency * wrapTime st.currentTime + (phaseOffset : ℝ)),
      ⟨st.currentSampleRate, wrapTime st.currentTime + st.timeStep, st.timeStep⟩)
  else none

/-- `tap::SynthWave::processTriangle`. -/
noncomputable def SynthWave.processTriangle (st : SynthWave) (frequency : ℝ)
    (phaseOffset : ℤ) : Option (ℝ × SynthWave) :=
  if 0 < st.currentSampleRate then
    some (8 / (Real.pi * Real.pi) *
        triangleSumOfSines (maxHarmonicOf st.currentSampleRate frequency)
          (2 * Real.pi * frequency * wrapTime st.currentTime + (phaseOffset : ℝ)),
      ⟨st.currentSampleRate, wrapTime st.currentTime + st.timeStep, st.timeStep⟩)
  else none

/-- `tap::SynthWave::processImpulseTrain`. -/
noncomputable def SynthWave.processImpulseTrain (st : SynthWave) (frequency : ℝ)
    (phaseOffset : ℤ) : Option (ℝ × SynthWave) :=
  if 0 < st.currentSampleRate then
    some (Real.pi / (2 * ((maxHarmonicOf st.currentSampleRate frequency : ℕ) : ℝ)) *
        impulseSumOfSines (maxHarmonicOf st.currentSampleRate frequency)
          (2 * Real.pi * frequency * wrapTime st.currentTime + (phaseOffset : ℝ)),
      ⟨st.currentSampleRate, wrapTime st.currentTime + st.timeStep, st.timeStep⟩)
  else none

/-- C5 counterexample: `processSine` does reset the phase once it reaches
1.0.  At phase exactly 1 with `timeStep = 1/2`, the stored phase after the
call is `0 + 1/2 = 1/2`, not the unwrapped `1 + 1/2`. -/
theorem processSine_wraps_at_one_counterexample :
    ((SynthWave.processSine ⟨2, 1, 1/2⟩ 5 0).map fun q => q.2.currentTime) =
      some (1/2) ∧ (1/2 : ℝ) ≠ 1 + 1/2 := by
  constructor
  · norm_num [SynthWave.processSine, wrapTime]
  · norm_num

/-- C5 (amended): every generator, the plain sine included, resets the
stored phase to zero once it reaches 1.0 before computing its output, and
then advances it by `timeStep`. -/
theorem oscillators_wrap_phase_at_one (st : SynthWave) (f : ℝ) (p : ℤ)
    (h : 0 < st.currentSampleRate) :
    ((st.processSine f p).map fun q => q.2.currentTime) =
      some ((if 1 ≤ st.currentTime then 0 else st.currentTime) + st.timeStep) ∧
    ((st.processSquare f p).map fun q => q.2.currentTime) =
      some ((if 1 ≤ st.currentTime then 0 else st.currentTime) + st.timeStep) ∧
    ((st.processSaw f p).map fun q => q.2.currentTime) =
      some ((if 1 ≤ st.currentTime then 0 else st.currentTime) + st.timeStep) ∧
    ((st.processTriangle f p).map fun q => q.2.currentTime) =
      some ((if 1 ≤ st.currentTime then 0 else st.currentTime) + st.timeStep) ∧
    ((st.processImpulseTrain f p).map fun q => q.2.currentTime) =
      some ((if 1 ≤ st.currentTime then 0 else st.currentTime) + st.timeStep) := by
  refine ⟨?_, ?_, ?_, ?_, ?_⟩ <;>
    simp [SynthWave.processSine, SynthWave.processSquare, SynthWave.processSaw,
      SynthWave.processTriangle, SynthWave.processImpulseTrain, wrapTime, h]

/-- Witness for C5 at a prepared oscillator whose phase sits at `3/2 ≥ 1`. -/
theorem oscillators_wrap_phase_at_one_witness :
    ((SynthWave.processSine ⟨1, 3/2, 1⟩ 7 0).map fun q => q.2.currentTime) =
      some ((if (1:ℝ) ≤ 3/2 then 0 else 3/2) + 1) :=
  (oscillators_wrap_phase_at_one ⟨1, 3/2, 1⟩ 7 0 (by norm_num)).1

/-- C6 counterexample: on a prepared oscillator, `processSine` at the
inaudible frequency 1 Hz succeeds and produces a sample; no audible-range
precondition fires. -/
theorem processSine_ignores_audible_range_counterexample :
    (SynthWave.processSine ⟨1, 0, 1⟩ 1 0).isSome = true ∧
      ¬ ((20:ℝ) ≤ 1 ∧ (1:ℝ) ≤ 20000) := by
  constructor
  · norm_num [SynthWave.processSine]
  · norm_num

/-- C6 (amended): every generator, the plain sine included, checks only
that the sample rate has been prepared; none of them enforces the audible
frequency range [20, 20000] Hz. -/
theorem oscillators_no_frequency_precondition (st : SynthWave) (f : ℝ) (p : ℤ)
    (h : 0 < st.currentSampleRate) :
    (st.processSine f p).isSome = true ∧
    (st.processSquare f p).isSome = true ∧
    (st.processSaw f p).isSome = true ∧
    (st.processTriangle f p).isSome = true ∧
    (st.processImpulseTrain f p).isSome = true := by
  refine ⟨?_, ?_, ?_, ?_, ?_⟩ <;>
    simp [SynthWave.processSine, SynthWave.processSquare, SynthWave.processSaw,
      SynthWave.processTriangle, SynthWave.processImpulseTrain, h]

/-- Witness for C6 at sample rate 1 and the out-of-range frequency 1 Hz. -/
theorem oscillators_no_frequency_precondition_witness :
    (SynthWave.processSquare ⟨1, 0, 1⟩ 1 0).isSome = true :=
  (oscillators_no_frequency_precondition ⟨1, 0, 1⟩ 1 0 (by norm_num)).2.1

/-- The saw harmonic sum at `maxHarmonic = 2`, `θ = π/2`:
`sin(π/2) + (1/2)·sin(π) = 1`. -/
theorem sawSumOfSines_two_at_pi_div_two : sawSumOfSines 2 (Real.pi / 2) = 1 := by
  have hIcc : Finset.Icc 1 2 = ({1, 2} : Finset ℕ) := by decide
  rw [sawSumOfSines, hIcc, Finset.sum_insert (by decide), Finset.sum_singleton]
  push_cast
  rw [one_mul, Real.sin_pi_div_two,
    show (2 : ℝ) * (Real.pi / 2) = Real.pi by ring, Real.sin_pi]
  norm_num

/-- `maxHarmonic` at sample rate 4 and frequency 1 is `⌊4/2⌋ = 2`. -/
theorem maxHarmonicOf_four_one : maxHarmonicOf 4 1 = 2 := by
  rw [maxHarmonicOf, show (4 : ℝ) / (2 * 1) = 2 by norm_num,
    show ⌊(2:ℝ)⌋ = 2 by norm_num]
  decide

/-- C4 counterexample: at sample rate 4, frequency 1, phase 1/4 the harmonic
sum is 1, the code returns `(1/2 : int) − (1/π)·1 = −1/π`, and that differs
from the claimed `(1/2 − 1/π)·1` by the vanished integer-division term. -/
theorem processSaw_scale_counterexample :
    (SynthWave.processSaw ⟨4, 1/4, 1/4⟩ 1 0).map Prod.fst =
      some (-(1 / Real.pi)) ∧
    -(1 / Real.pi) ≠ (1/2 - 1 / Real.pi) *
      sawSumOfSines (maxHarmonicOf 4 1)
        (2 * Real.pi * 1 * wrapTime (1/4) + ((0 : ℤ) : ℝ)) := by
  have hw : wrapTime ((1:ℝ)/4) = 1/4 := by
    rw [wrapTime, if_neg]; norm_num
  have hθ : 2 * Real.pi * 1 * ((1:ℝ)/4) + ((0 : ℤ) : ℝ) = Real.pi / 2 := by
    push_cast; ring
  constructor
  · rw [SynthWave.processSaw, if_pos (show (0:ℝ) < 4 by norm_num)]
    simp only [Option.map_some']
    rw [hw, hθ, maxHarmonicOf_four_one, sawSumOfSines_two_at_pi_div_two]
    norm_num
  · rw [hw, hθ, maxHarmonicOf_four_one, sawSumOfSines_two_at_pi_div_two, mul_one]
    intro h
    have hc : (0:ℝ) = 1/2 := by linarith
    norm_num at hc

/-- C4 (amended): on a prepared oscillator the saw generator returns
`−(1/π) · Σ_{h=1..maxHarmonic} (1/h)·sin(h·θ)`: the C++ `(1 / 2)` term is
integer division and contributes 0, and `1/π` scales only the sum. -/
theorem processSaw_output_formula (st : SynthWave) (f : ℝ) (p : ℤ)
    (h : 0 < st.currentSampleRate) :
    st.processSaw f p = some
      (-(1 / Real.pi) * sawSumOfSines (maxHarmonicOf st.currentSampleRate f)
          (2 * Real.pi * f * wrapTime st.currentTime + (p : ℝ)),
        ⟨st.currentSampleRate, wrapTime st.currentTime + st.timeStep,
          st.timeStep⟩) := by
  rw [SynthWave.processSaw, if_pos h,
    show ((1 / 2 : ℤ) : ℝ) = 0 by norm_num, zero_sub, neg_mul]

/-- Witness for C4 at sample rate 4, frequency 1, phase 1/4. -/
theorem processSaw_output_formula_witness :
    SynthWave.processSaw ⟨4, 1/4, 1/4⟩ 1 0 = some
      (-(1 / Real.pi) * sawSumOfSines (maxHarmonicOf 4 1)
          (2 * Real.pi * 1 * wrapTime (1/4) + ((0 : ℤ) : ℝ)),
        ⟨4, wrapTime (1/4) + 1/4, 1/4⟩) :=
  processSaw_output_formula ⟨4, 1/4, 1/4⟩ 1 0 (by norm_num)

/-- `tap::TremoloWaveType`: the tremolo wave selector has exactly the four
variants that appear in the C++ enum. -/
inductive TremoloWaveType where
  | Sine
  | Saw
  | Square
  | Triangle
deriving DecidableEq, Fintype

/-- State of `tap::Tremolo<Type>`. -/
structure Tremolo where
  modulator : SynthWave
  waveType : TremoloWaveType
  currentSampleRate : ℝ
  frequency : ℝ

/-- `tap::Tremolo::prepareToPlay`: forwards the rate to the modulator. -/
noncomputable def Tremolo.prepareToPlay (st : Tremolo) (sampleRate : ℝ) :
    Tremolo :=
  { st with currentSampleRate := sampleRate,
            modulator := st.modulator.prepareToPlay sampleRate }

/-- `tap::Tremolo::setFrequency`. -/
def Tremolo.setFrequency (st : Tremolo) (freq : ℝ) : Tremolo :=
  { st with frequency := freq }

/-- `tap::Tremolo::setWaveType`. -/
def Tremolo.setWaveType (st : Tremolo) (type : TremoloWaveType) : Tremolo :=
  { st with waveType := type }

/-- `tap::Tremolo::getModulator`: dispatches on the stored wave type and
takes the absolute value of the oscillator output.  The C++ `default:`
branch (returning the sine, unreachable for in-range enum values) has no
counterpart because the four constructors are exhaustive. -/
noncomputable def Tremolo.getModulator (st : Tremolo) :
    Option (ℝ × SynthWave) :=
  match st.waveType with
  | TremoloWaveType.Sine =>
      (st.modulator.processSine st.frequency 0).map fun q => (|q.1|, q.2)
  | TremoloWaveType.Saw =>
      (st.modulator.processSaw st.frequency 0).map fun q => (|q.1|, q.2)
  | TremoloWaveType.Square =>
      (st.modulator.processSquare st.frequency 0).map fun q => (|q.1|, q.2)
  | TremoloWaveType.Triangle =>
      (st.modulator.processTriangle st.frequency 0).map fun q => (|q.1|, q.2)

/-- `tap::Tremolo::process`: the three assertions (`amp` in range, rate
prepared, frequency set) are modelled as `none`. -/
noncomputable def Tremolo.process (st : Tremolo) (sample : ℝ) (amp : ℝ) :
    Option (ℝ × Tremolo) :=
  if 0 ≤ amp ∧ amp ≤ 1 then
    if 0 < st.currentSampleRate then
      if 0 < st.frequency then
        st.getModulator.map fun p =>
          (sample * (amp * p.1), { st with modulator := p.2 })
      else none
    else none
  else none

/-- C8 counterexample: the tremolo wave selector has four variants, not
five — there is no impulse-train tremolo waveform. -/
theorem tremoloWaveType_not_five_variants :
    Fintype.card TremoloWaveType = 4 ∧ (4 : ℕ) ≠ 5 := by
  constructor
  · decide
  · decide

/-- C8 (amended): with `amp ∈ [0,1]`, rate prepared and frequency set, the
tremolo returns `sample × (amp × m)` where `m` is the absolute value of the
dispatched oscillator output delivered by `getModulator`; the modulation
factor `amp × m` is nonnegative, so the output never inverts the input's
polarity. -/
theorem tremolo_process_spec (st : Tremolo) (sample amp : ℝ)
    (h0 : 0 ≤ amp) (h1 : amp ≤ 1) (hr : 0 < st.currentSampleRate)
    (hf : 0 < st.frequency) (hm : 0 < st.modulator.currentSampleRate) :
    ∃ m modSt, st.getModulator = some (m, modSt) ∧ 0 ≤ m ∧
      st.process sample amp =
        some (sample * (amp * m), { st with modulator := modSt }) ∧
      0 ≤ amp * m := by
  have hget : ∃ m modSt, st.getModulator = some (m, modSt) ∧ 0 ≤ m := by
    cases hwt : st.waveType with
    | Sine =>
        simp only [Tremolo.getModulator, hwt]
        rw [SynthWave.processSine, if_pos hm]
        exact ⟨_, _, rfl, abs_nonneg _⟩
    | Saw =>
        simp only [Tremolo.getModulator, hwt]
        rw [SynthWave.processSaw, if_pos hm]
        exact ⟨_, _, rfl, abs_nonneg _⟩
    | Square =>
        simp only [Tremolo.getModulator, hwt]
        rw [SynthWave.processSquare, if_pos hm]
        exact ⟨_, _, rfl, abs_nonneg _⟩
    | Triangle =>
        simp only [Tremolo.getModulator, hwt]
        rw [SynthWave.processTriangle, if_pos hm]
        exact ⟨_, _, rfl, abs_nonneg _⟩
  obtain ⟨m, modSt, hg, hmn⟩ := hget
  refine ⟨m, modSt, hg, hmn, ?_, mul_nonneg h0 hmn⟩
  rw [Tremolo.process, if_pos ⟨h0, h1⟩, if_pos hr, if_pos hf, hg]
  rfl

/-- Witness for C8 on a prepared sine tremolo at frequency 1 with full
depth. -/
theorem tremolo_process_spec_witness :
    ∃ m modSt,
      (Tremolo.mk ⟨1, 0, 1⟩ TremoloWaveType.Sine 1 1).getModulator =
        some (m, modSt) ∧ 0 ≤ m ∧
      (Tremolo.mk ⟨1, 0, 1⟩ TremoloWaveType.Sine 1 1).process 1 1 =
        some (1 * (1 * m),
          { Tremolo.mk ⟨1, 0, 1⟩ TremoloWaveType.Sine 1 1 with
              modulator := modSt }) ∧
      0 ≤ 1 * m :=
  tremolo_process_spec (Tremolo.mk ⟨1, 0, 1⟩ TremoloWaveType.Sine 1 1) 1 1
    (by norm_num) (le_refl 1) (by norm_num) (by norm_num) (by norm_num)

/-- `tap::FadeType`. -/
inductive FadeType where
  | In
  | Out
deriving DecidableEq

/-- State of `tap::AmplitudeFade<Type>`: the precomputed ramp (8192 slots,
zero-initialized) and the stored fade direction (defaulting to `In`). -/
structure AmplitudeFade where
  fadeRamp : ℕ → ℝ
  fadeType : FadeType

/-- The compile-time ramp capacity `rampSize = 8192`. -/
def AmplitudeFade.rampSize : ℕ := 8192

/-- A freshly constructed fade with zeroed ramp and direction `In`. -/
noncomputable def AmplitudeFade.init : AmplitudeFade :=
  ⟨fun _ => 0, FadeType.In⟩

/-- `tap::AmplitudeFade::buildRamp`.  Faithful to the source: the
`fadeInOrOut` parameter is accepted but the body reads the stored member
`fadeType`, and `i / numSamplesToFade` divides the two `int` loop values. -/
noncomputable def AmplitudeFade.buildRamp (st : AmplitudeFade)
    (numSamplesToFade : ℕ) ( fadeInOrOut : FadeType) (curve0 : ℝ) :
    AmplitudeFade :=
  let curve := if curve0 = 0 then 0.1 else curve0
  let start : ℝ := if st.fadeType = FadeType.Out then 1 else 0
  let endVal : ℝ := if st.fadeType = FadeType.Out then 0 else 1
  { st with fadeRamp := fun i =>
      if i < numSamplesToFade then
        (Real.exp (curve * (start + (endVal - start) *
            ((i / numSamplesToFade : ℕ) : ℝ))) - 1) / (Real.exp curve - 1)
      else st.fadeRamp i }

/-- C3: `buildRamp(100, In, 1.0)` fills the ramp with zeros.  The index
quotient `i / numSamplesToFade` is C++ integer division, hence 0 for every
`i < 100`, so every entry is `(e^0 − 1)/(e − 1) = 0`: the first and the last
entry are both 0, so the ramp neither ends near 1 nor increases. -/
theorem buildRamp_integer_division_bug :
    (AmplitudeFade.init.buildRamp 100 FadeType.In 1).fadeRamp 0 = 0 ∧
    (AmplitudeFade.init.buildRamp 100 FadeType.In 1).fadeRamp 50 = 0 ∧
    (AmplitudeFade.init.buildRamp 100 FadeType.In 1).fadeRamp 99 = 0 := by
  have hne : (if FadeType.In = FadeType.Out then (1:ℝ) else 0) = 0 :=
    if_neg (by decide)
  refine ⟨?_, ?_, ?_⟩ <;>
    · simp only [AmplitudeFade.buildRamp, AmplitudeFade.init]
      norm_num [Real.exp_zero, hne]

/-- Stateless `tap::MidSideProcessing::encode` (the class carries no
members); the stereo-channel assertion is modelled as `none`. -/
noncomputable def MidSideProcessing.encode (channel : ℤ)
    (leftSample rightSample : ℝ) : Option ℝ :=
  if 0 ≤ channel ∧ channel ≤ 1 then
    some (if channel = 0 then 0.5 * leftSample - rightSample
          else 0.5 * leftSample + rightSample)
  else none

/-- Stateless `tap::MidSideProcessing::decode`. -/
noncomputable def MidSideProcessing.decode (channel : ℤ)
    (middleSample sideSample : ℝ) : Option ℝ :=
  if 0 ≤ channel ∧ channel ≤ 1 then
    some (if channel = 0 then middleSample + sideSample
          else middleSample - sideSample)
  else none

/-- C1 counterexample: for `(left, right) = (0, 1)` the encoder outputs are
`mid = encode(1,0,1) = 1` and `side = encode(0,0,1) = −1`, and
`decode(1, mid, side) = 2 ≠ 1 = right`. -/
theorem midSide_roundtrip_counterexample :
    MidSideProcessing.encode 1 0 1 = some 1 ∧
    MidSideProcessing.encode 0 0 1 = some (-1) ∧
    MidSideProcessing.decode 1 1 (-1) = some 2 ∧ (2 : ℝ) ≠ 1 := by
  refine ⟨?_, ?_, ?_, by norm_num⟩ <;>
    norm_num [MidSideProcessing.encode, MidSideProcessing.decode]

/-- C1 (amended): with `mid = encode(1,left,right)` and
`side = encode(0,left,right)`, decoding returns channel 0 = `left` but
channel 1 = `2·right`: the round trip reproduces the left sample exactly
and the right sample doubled. -/
theorem midSide_roundtrip_amended (l r mid side : ℝ)
    (hmid : MidSideProcessing.encode 1 l r = some mid)
    (hside : MidSideProcessing.encode 0 l r = some side) :
    MidSideProcessing.decode 0 mid side = some l ∧
    MidSideProcessing.decode 1 mid side = some (2 * r) := by
  rw [MidSideProcessing.encode,
    if_pos (show (0:ℤ) ≤ 1 ∧ (1:ℤ) ≤ 1 by norm_num),
    if_neg (show ¬(1:ℤ) = 0 by norm_num)] at hmid
  rw [MidSideProcessing.encode,
    if_pos (show (0:ℤ) ≤ 0 ∧ (0:ℤ) ≤ 1 by norm_num), if_pos rfl] at hside
  have hm := Option.some.inj hmid
  have hs := Option.some.inj hside
  constructor
  · rw [MidSideProcessing.decode,
      if_pos (show (0:ℤ) ≤ 0 ∧ (0:ℤ) ≤ 1 by norm_num), if_pos rfl,
      ← hm, ← hs]
    simp only [Option.some.injEq]
    ring
  · rw [MidSideProcessing.decode,
      if_pos (show (0:ℤ) ≤ 1 ∧ (1:ℤ) ≤ 1 by norm_num),
      if_neg (show ¬(1:ℤ) = 0 by norm_num), ← hm, ← hs]
    simp only [Option.some.injEq]
    ring

/-- Witness for C1 at `(left, right) = (0, 1)`. -/
theorem midSide_roundtrip_amended_witness :
    MidSideProcessing.decode 0 1 (-1) = some 0 ∧
    MidSideProcessing.decode 1 1 (-1) = some (2 * 1) :=
  midSide_roundtrip_amended 0 1 1 (-1)
    (by norm_num [MidSideProcessing.encode])
    (by norm_num [MidSideProcessing.encode])

/-- Model of `std::atan2 (y, x)`: the argument of the complex number
`x + y·i`, which agrees with `atan2` on every quadrant and on the axes. -/
noncomputable def atan2 (y x : ℝ) : ℝ := Complex.arg ⟨x, y⟩

/-- Stateless `tap::Goniometer::calculatePolarCoordinates`: returns the
tuple `(theta, radius)` in that order. -/
noncomputable def Goniometer.calculatePolarCoordinates
    (leftSample rightSample : ℝ) : ℝ × ℝ :=
  (atan2 leftSample rightSample,
   Real.sqrt (leftSample * leftSample + rightSample * rightSample))

/-- Stateless `tap::Goniometer::calculateCartesianCoordinates`: reads
component 0 of its argument as the radius and component 1 as the angle. -/
noncomputable def Goniometer.calculateCartesianCoordinates
    (radiusAndTheta : ℝ × ℝ) : ℝ × ℝ :=
  (radiusAndTheta.1 * Real.cos radiusAndTheta.2,
   radiusAndTheta.1 * Real.sin radiusAndTheta.2)

/-- C10: the polar encoder emits `(theta, radius)` while the Cartesian
decoder consumes `(radius, theta)`, so the composition yields
`(θ·cos r, θ·sin r)` with `θ = atan2(left,right)`, `r = sqrt(left²+right²)`
— and at `(0, 1)` this is `(0, 0)`, not the original pair. -/
theorem goniometer_tuple_order_mismatch :
    (∀ l r : ℝ, Goniometer.calculateCartesianCoordinates
        (Goniometer.calculatePolarCoordinates l r) =
      (atan2 l r * Real.cos (Real.sqrt (l * l + r * r)),
       atan2 l r * Real.sin (Real.sqrt (l * l + r * r)))) ∧
    Goniometer.calculateCartesianCoordinates
      (Goniometer.calculatePolarCoordinates 0 1) ≠ ((0 : ℝ), (1 : ℝ)) := by
  constructor
  · intro l r; rfl
  · have h1 : atan2 0 1 = 0 := by
      rw [atan2, show (⟨1, 0⟩ : ℂ) = 1 from Complex.ext rfl rfl, Complex.arg_one]
    have hcomp : Goniometer.calculateCartesianCoordinates
        (Goniometer.calculatePolarCoordinates 0 1) = ((0 : ℝ), (0 : ℝ)) := by
      rw [Goniometer.calculateCartesianCoordinates,
        Goniometer.calculatePolarCoordinates, h1]
      norm_num
    rw [hcomp]
    norm_num [Prod.ext_iff]

/-- Stateless `tap::Distortion::processInfiniteClipping`. -/
noncomputable def Distortion.processInfiniteClipping (sample : ℝ) : ℝ :=
  if sample = 0 then 0 else if 0 ≤ sample then 1 else -1

/-- Stateless `tap::Distortion::processHalfWaveRectification`. -/
noncomputable def Distortion.processHalfWaveRectification (sample : ℝ) : ℝ :=
  if sample < 0 then 0 else sample

/-- Stateless `tap::Distortion::processFullWaveRectification`. -/
noncomputable def Distortion.processFullWaveRectification (sample : ℝ) : ℝ :=
  if sample < 0 then |sample| else sample

/-- Stateless `tap::Distortion::processHardClipping`; the threshold-range
assertion is modelled as `none`. -/
noncomputable def Distortion.processHardClipping (sample maxThresh : ℝ) :
    Option ℝ :=
  if 0 ≤ maxThresh ∧ maxThresh ≤ 1 then
    some (if maxThresh ≤ sample then maxThresh
          else if sample ≤ -maxThresh then -maxThresh else sample)
  else none

/-- Stateless `tap::Distortion::processCubic`.  The C++ line is
`sample - 1 / 3 * (sample * sample * sample)`: `1 / 3` divides the int
literals 1 and 3 before the promotion to floating point. -/
noncomputable def Distortion.processCubic (sample : ℝ) : ℝ :=
  sample - ((1 / 3 : ℤ) : ℝ) * (sample * sample * sample)

/-- Stateless `tap::Distortion::processArcTan`; the coefficient-range
assertion is modelled as `none`. -/
noncomputable def Distortion.processArcTan (sample coefficient : ℝ) :
    Option ℝ :=
  if 1 ≤ coefficient ∧ coefficient ≤ 10 then
    some (2 / Real.pi * Real.arctan (coefficient * sample))
  else none

/-- C7: because `1 / 3` is C++ integer division, the cubic term vanishes and
`processCubic` is the identity; at `sample = 1` the code returns 1 while the
documented soft clip `x − x³/3` gives `2/3`. -/
theorem processCubic_identity_bug :
    (∀ s : ℝ, Distortion.processCubic s = s) ∧
    Distortion.processCubic 1 = 1 ∧ (1 : ℝ) ≠ 1 - 1 ^ 3 / 3 := by
  have h : ∀ s : ℝ, Distortion.processCubic s = s := by
    intro s
    rw [Distortion.processCubic, show ((1 / 3 : ℤ) : ℝ) = 0 by norm_num]
    ring
  exact ⟨h, h 1, by norm_num⟩

end tap
